import Mathlib

/-!
Verification of the SchoolMeetingBackend core (backend/index.js): the
in-memory meeting-session registry (create-meeting, select-slot,
validate-meeting endpoints), the meeting-id generator, and the Socket.IO
signaling relay (join-room, send-call).

The JS store `meetingData` is an object keyed by meeting id; we embed it
as an association list whose lookup returns the first binding for a key.
Wall-clock time (`Date.now()`) is an explicit `Nat` parameter.
Randomness (`Math.floor(Math.random() * chars.length)`, always in
`[0, 31]`) is an explicit oracle `Nat → Fin 32`, and the generator's
unbounded collision-retry recursion is given explicit fuel: `none` means
the retry loop has not yet terminated.
-/

/-- A session record, as stored in `meetingData[meetingId]` by
`/create-meeting`: `{ id, createdAt, recipientEmail, expires, slotTime,
status }`.  `status` is the literal JS string, `'pending'` or
`'confirmed'`; `slotTime` is `null` until a slot is selected. -/
structure Meeting where
  id : String
  createdAt : Nat
  recipientEmail : String
  expires : Nat
  slotTime : Option String
  status : String
deriving DecidableEq, Repr

/-- The in-memory store `meetingData`, as an association list from
meeting id to record (first binding wins on lookup). -/
abbrev MeetingData : Type := List (String × Meeting)

/-- `meetingData[meetingId]`: first binding for the key, if any. -/
def lookupMeeting (d : MeetingData) (mid : String) : Option Meeting :=
  (d.find? (fun p => p.1 == mid)).map (fun p => p.2)

/-- In-place mutation of the record stored under `mid`
(`meeting.slotTime = ...; meeting.status = ...` mutates the object the
store points to): every binding for `mid` is replaced by `m`. -/
def updateMeeting (d : MeetingData) (mid : String) (m : Meeting) : MeetingData :=
  d.map (fun p => if p.1 == mid then (p.1, m) else p)

/-- The alphabet of `generateMeetingId`:
`'ABCDEFGHJKLMNPQRSTUVWXYZ23456789'` (32 characters; no `0`, `O`, `1`,
`I`). -/
def meetingChars : List Char :=
  ['A', 'B', 'C', 'D', 'E', 'F', 'G', 'H', 'J', 'K', 'L', 'M', 'N', 'P',
   'Q', 'R', 'S', 'T', 'U', 'V', 'W', 'X', 'Y', 'Z', '2', '3', '4', '5',
   '6', '7', '8', '9']

/-- `chars.charAt(i)` for an index produced by
`Math.floor(Math.random() * chars.length)`, which always lies in
`[0, 31]`. -/
def charAt (i : Fin 32) : Char :=
  meetingChars.getD i.val 'A'

/-- The characters accumulated by one run of the `for` loop of
`generateMeetingId`, reading the random oracle at positions
`8*k .. 8*k+7` for the `k`-th attempt. -/
def attemptChars (rand : Nat → Fin 32) (k : Nat) : List Char :=
  (List.range 8).map (fun i => charAt (rand (8 * k + i)))

/-- One attempt of `generateMeetingId`: the 8-character string built by
the `for` loop. -/
def attemptId (rand : Nat → Fin 32) (k : Nat) : String :=
  String.mk (attemptChars rand k)

/-- `generateMeetingId`: build an 8-character candidate; if
`meetingData[result]` already exists, recurse.  The JS recursion is
unbounded; `fuel` bounds it here, `none` meaning the loop has not
terminated within `fuel` attempts. -/
def generateMeetingId (d : MeetingData) (rand : Nat → Fin 32) :
    Nat → Nat → Option String
  | _, 0 => none
  | k, fuel + 1 =>
    let result := attemptId rand k
    if (lookupMeeting d result).isSome then
      generateMeetingId d rand (k + 1) fuel
    else
      some result

/-- `.test` of the slot-time regex `^\d{2}:\d{2}$` from `/select-slot`:
exactly two ASCII digits, a colon, two ASCII digits. -/
def matchesSlotPattern (s : String) : Bool :=
  match s.data with
  | [a, b, c, d, e] => a.isDigit && b.isDigit && c == ':' && d.isDigit && e.isDigit
  | _ => false

/-- Outcome of `/create-meeting` (the HTTP response, abstracted):
missing `recipientEmail` → 400; email send failure after storing → 500
`EMAIL_FAILED`; success → `{ meetingId, expires }`.  `genDiverged`
is the fuel-exhaustion artifact of the embedded generator: the JS
process would still be inside the retry loop. -/
inductive CreateResult where
  | missingEmail
  | emailFailed
  | ok (meetingId : String) (expires : Nat)
  | genDiverged
deriving DecidableEq, Repr

/-- `/create-meeting`: reject a falsy (empty) `recipientEmail`;
otherwise mint an id, store the record with `status = 'pending'`,
`slotTime = null`, `expires = now + 30*60*1000`, then try to send the
invitation email (`emailOk` abstracts the nodemailer outcome): on
failure respond 500 `EMAIL_FAILED`, but the record stays stored. -/
def createMeeting (d : MeetingData) (now : Nat) (recipientEmail : String)
    (rand : Nat → Fin 32) (k fuel : Nat) (emailOk : Bool) :
    CreateResult × MeetingData :=
  if recipientEmail == "" then
    (.missingEmail, d)
  else
    match generateMeetingId d rand k fuel with
    | none => (.genDiverged, d)
    | some meetingId =>
      let expires := now + 30 * 60 * 1000
      let record : Meeting :=
        { id := meetingId, createdAt := now, recipientEmail := recipientEmail,
          expires := expires, slotTime := none, status := "pending" }
      let d2 : MeetingData := (meetingId, record) :: d
      if emailOk then (.ok meetingId expires, d2) else (.emailFailed, d2)

/-- Outcome of `/select-slot`: missing/falsy field → 400; unknown id →
404; regex failure → 400 `Invalid slot time format`; else success. -/
inductive SelectSlotResult where
  | missingFields
  | notFound
  | invalidFormat
  | ok
deriving DecidableEq, Repr

/-- `/select-slot`: require both fields truthy (non-empty), look the
meeting up (404 when absent), test the slot time against
`^\d{2}:\d{2}$` (400 when it fails), then set `meeting.slotTime` and
`meeting.status = 'confirmed'`. -/
def selectSlot (d : MeetingData) (meetingId slotTime : String) :
    SelectSlotResult × MeetingData :=
  if meetingId == "" || slotTime == "" then
    (.missingFields, d)
  else
    match lookupMeeting d meetingId with
    | none => (.notFound, d)
    | some meeting =>
      if !matchesSlotPattern slotTime then
        (.invalidFormat, d)
      else
        (.ok, updateMeeting d meetingId
          { meeting with slotTime := some slotTime, status := "confirmed" })

/-- Outcome of `/validate-meeting/:meetingId`: unknown id →
`{valid: false, message: 'Meeting not found.'}`; `Date.now() > expires`
→ `{valid: false, message: '... expired.'}`; else
`{valid: true, meetingId, slotTime}`. -/
inductive ValidateResult where
  | notFound
  | expired
  | valid (meetingId : String) (slotTime : Option String)
deriving DecidableEq, Repr

/-- `/validate-meeting/:meetingId`: pure read of the store, with the
expiry check `Date.now() > meeting.expires` applied at read time.  The
handler performs no assignment, so the store component of the result is
the incoming store. -/
def validateMeeting (d : MeetingData) (now : Nat) (mid : String) :
    ValidateResult × MeetingData :=
  match lookupMeeting d mid with
  | none => (.notFound, d)
  | some meeting =>
    if now > meeting.expires then (.expired, d)
    else (.valid meeting.id meeting.slotTime, d)

/-!
The Socket.IO signaling relay.  Its state is the set of connected
sockets and the room memberships.  In Socket.IO every connected socket
is additionally a member of the room named by its own socket id, which
is how `io.to(socketId)` addresses a single socket; `socket.to(room)`
addresses the sockets in `room` other than the sender.  Emitting an
event yields a list of `(recipient socket id, event)` deliveries. -/

/-- Relay state: the connected socket ids, and the explicit `(socket,
room)` memberships created by `socket.join`. -/
structure RelayState where
  connected : List String
  membership : List (String × String)
deriving DecidableEq, Repr

/-- Events the relay emits to clients. -/
inductive RelayEvent where
  | userJoined (newMember : String)
  | receiveCall (callerId : String) (signal : String)
deriving DecidableEq, Repr

/-- Socket `x` is in room `room`: every socket is in the room named by
its own id, plus the rooms it joined. -/
def inRoom (st : RelayState) (x room : String) : Bool :=
  x == room || st.membership.contains (x, room)

/-- The `join-room` handler: `socket.join(roomId)` (a set insertion —
re-joining a room the socket is already in changes nothing), then
`socket.to(roomId).emit('user-joined', socket.id)`, which delivers to
every connected socket in the room except the joiner itself. -/
def joinRoom (st : RelayState) (c room : String) :
    RelayState × List (String × RelayEvent) :=
  let st2 : RelayState :=
    if st.membership.contains (c, room) then st
    else { st with membership := (c, room) :: st.membership }
  let recipients := st2.connected.filter (fun x => x != c && inRoom st2 x room)
  (st2, recipients.map (fun x => (x, .userJoined c)))

/-- The `send-call` handler:
`io.to(userToSignal).emit('receive-call', { callerId, signal })` —
deliver to every connected socket in the room named `userToSignal`
(for a socket id, exactly that socket), with no membership check on the
sender and no exclusion. -/
def sendCall (st : RelayState) (userToSignal callerId signal : String) :
    List (String × RelayEvent) :=
  (st.connected.filter (fun x => inRoom st x userToSignal)).map
    (fun x => (x, .receiveCall callerId signal))

/-!
A specification-side predicate, for comparison with the code's regex:
a strict 24-hour `HH:MM` wall-clock time (two digits with hour below
24, colon, two digits with minute below 60).  This definition follows
the spec's words, not the code, and exists to compare the two. -/

/-- Spec-side: `s` denotes a valid 24-hour `HH:MM` time: it has the
two-digit/colon/two-digit shape, its hour is below 24, and its minute
is below 60. -/
def isValid24hTime (s : String) : Bool :=
  matchesSlotPattern s &&
    (match s.data with
     | [a, b, _, d, e] =>
       decide (10 * (a.toNat - 48) + (b.toNat - 48) < 24) &&
         decide (10 * (d.toNat - 48) + (e.toNat - 48) < 60)
     | _ => false)

/-! Concrete fixtures used by counterexamples and witnesses. -/

/-- A pending session created at time 0 (so `expires = 1800000`). -/
def meetingA : Meeting :=
  { id := "ABCD2345", createdAt := 0, recipientEmail := "parent@example.com",
    expires := 1800000, slotTime := none, status := "pending" }

/-- A store holding the single pending session `meetingA`. -/
def storeA : MeetingData := [("ABCD2345", meetingA)]

/-- A session already confirmed for `"09:30"`. -/
def meetingB : Meeting :=
  { id := "WXYZ6789", createdAt := 0, recipientEmail := "parent@example.com",
    expires := 1800000, slotTime := some "09:30", status := "confirmed" }

/-- A store holding the confirmed session `meetingB`. -/
def storeB : MeetingData := [("WXYZ6789", meetingB)]

/-! Helper lemmas about the store. -/

/-- A string matching the `^\d{2}:\d{2}$` pattern is non-empty (so it
is truthy for the `!slotTime` guard). -/
theorem matchesSlotPattern_ne_empty (s : String) (h : matchesSlotPattern s = true) :
    s ≠ "" := by
  intro h0
  rw [h0] at h
  exact absurd h (by decide)

/-- Unfolding `lookupMeeting` over a cons cell. -/
theorem lookupMeeting_cons (p : String × Meeting) (t : MeetingData) (mid : String) :
    lookupMeeting (p :: t) mid =
      if p.1 == mid then some p.2 else lookupMeeting t mid := by
  cases h : (p.1 == mid) <;> simp [lookupMeeting, List.find?_cons, h]

/-- Looking up `mid'` after the in-place update of `mid`: the binding
keys are untouched, so the result is the old lookup, with its value
replaced by `m` exactly when `mid'` is the updated key. -/
theorem lookupMeeting_update_eq (d : MeetingData) (mid : String) (m : Meeting)
    (mid' : String) :
    lookupMeeting (updateMeeting d mid m) mid' =
      (lookupMeeting d mid').map (fun old => if mid' = mid then m else old) := by
  induction d with
  | nil => rfl
  | cons p t ih =>
    show lookupMeeting ((if p.1 == mid then (p.1, m) else p) :: updateMeeting t mid m) mid'
        = _
    cases h1 : (p.1 == mid) with
    | true =>
      rw [if_pos rfl, lookupMeeting_cons, lookupMeeting_cons]
      cases h2 : (p.1 == mid') with
      | true =>
        have hem : mid' = mid := by
          have e1 : p.1 = mid := by simpa using h1
          have e2 : p.1 = mid' := by simpa using h2
          rw [← e2, e1]
        simp [hem]
      | false =>
        simpa using ih
    | false =>
      rw [if_neg (by simp), lookupMeeting_cons, lookupMeeting_cons]
      cases h2 : (p.1 == mid') with
      | true =>
        have hne : ¬ mid' = mid := by
          have e1 : ¬ p.1 = mid := by simpa using h1
          have e2 : p.1 = mid' := by simpa using h2
          exact fun he => e1 (e2.trans he)
        simp [hne]
      | false =>
        simpa using ih

/-- After the in-place update of `mid`, looking `mid` up yields the new
record (provided `mid` was present). -/
theorem lookupMeeting_update_self (d : MeetingData) (mid : String) (m m0 : Meeting)
    (h : lookupMeeting d mid = some m0) :
    lookupMeeting (updateMeeting d mid m) mid = some m := by
  rw [lookupMeeting_update_eq, h]
  simp

/-! Helper lemmas about the id generator. -/

/-- Every character `charAt` can produce lies in the fixed alphabet. -/
theorem charAt_mem : ∀ i : Fin 32, charAt i ∈ meetingChars := by
  decide

/-- Each generation attempt is 8 characters long. -/
theorem attemptId_length (rand : Nat → Fin 32) (k : Nat) :
    (attemptId rand k).length = 8 := by
  simp [attemptId, attemptChars, String.length]

/-- Each generation attempt draws all its characters from the fixed
alphabet. -/
theorem attemptId_chars (rand : Nat → Fin 32) (k : Nat) :
    ∀ ch ∈ (attemptId rand k).data, ch ∈ meetingChars := by
  intro ch hch
  have hch' : ch ∈ attemptChars rand k := hch
  simp only [attemptChars, List.mem_map] at hch'
  obtain ⟨i, _, hi⟩ := hch'
  exact hi ▸ charAt_mem _

/-- Soundness of the generator: any id it returns is 8 characters from
the fixed alphabet and is not currently bound in the store (a colliding
attempt is retried, never returned). -/
theorem generateMeetingId_sound (d : MeetingData) (rand : Nat → Fin 32)
    (k fuel : Nat) (mid : String)
    (h : generateMeetingId d rand k fuel = some mid) :
    mid.length = 8 ∧ (∀ ch ∈ mid.data, ch ∈ meetingChars) ∧
      lookupMeeting d mid = none := by
  induction fuel generalizing k with
  | zero => simp [generateMeetingId] at h
  | succ fuel ih =>
    simp only [generateMeetingId] at h
    split at h
    · exact ih (k + 1) h
    · rename_i hfresh
      injection h with h
      subst h
      refine ⟨attemptId_length rand k, attemptId_chars rand k, ?_⟩
      exact Option.not_isSome_iff_eq_none.mp hfresh

/-! Helper lemmas about the relay. -/

/-- Adding a membership for socket `c` does not change the rooms of any
other socket `x`. -/
theorem inRoom_cons_ne (conn : List String) (M : List (String × String))
    (c room x room' : String) (hx : x ≠ c) :
    inRoom ⟨conn, (c, room) :: M⟩ x room' = inRoom ⟨conn, M⟩ x room' := by
  simp only [inRoom, List.contains_cons]
  have hpair : ((x, room') == (c, room)) = false := by
    have hxc : (x == c) = false := beq_eq_false_iff_ne.mpr hx
    show (x == c && room' == room) = false
    rw [hxc, Bool.false_and]
  rw [hpair, Bool.false_or]

/-- The deliveries of `join-room`: one `user-joined` event per
connected socket that was in the room apart from the joiner (the
joiner's freshly added membership is excluded by `socket.to`). -/
theorem joinRoom_recipients (st : RelayState) (c room : String) :
    (joinRoom st c room).2 =
      (st.connected.filter (fun x => x != c && inRoom st x room)).map
        (fun x => (x, RelayEvent.userJoined c)) := by
  simp only [joinRoom]
  split
  · rfl
  · congr 1
    apply List.filter_congr
    intro x hx
    by_cases hxc : x = c
    · subst hxc
      simp
    · rw [inRoom_cons_ne st.connected st.membership c room x room hxc]

/-- `join-room` leaves the connected set unchanged and makes the joiner
a member of the room. -/
theorem joinRoom_state (st : RelayState) (c room : String) :
    (joinRoom st c room).1.connected = st.connected ∧
    inRoom (joinRoom st c room).1 c room = true := by
  simp only [joinRoom]
  split
  · rename_i hmem
    refine ⟨rfl, ?_⟩
    simp only [inRoom, hmem, Bool.or_true]
  · refine ⟨rfl, ?_⟩
    simp [inRoom, List.contains_cons]

/-- Filtering a duplicate-free list for one known element yields
exactly that element. -/
theorem filter_beq_singleton (l : List String) (a : String) (hn : l.Nodup)
    (ha : a ∈ l) : l.filter (fun x => x == a) = [a] := by
  induction l with
  | nil => simp at ha
  | cons b t ih =>
    rw [List.filter_cons]
    by_cases hb : b = a
    · subst hb
      have hbt : b ∉ t := (List.nodup_cons.mp hn).1
      have hnil : t.filter (fun x => x == b) = [] :=
        List.filter_eq_nil_iff.mpr (fun x hx => by
          simp only [beq_iff_eq]
          intro he
          exact hbt (he ▸ hx))
      simp [hnil]
    · have hat : a ∈ t := by
        cases List.mem_cons.mp ha with
        | inl h => exact absurd h.symm hb
        | inr h => exact h
      have ht := ih (List.nodup_cons.mp hn).2 hat
      simp only [beq_iff_eq]
      rw [if_neg hb]
      simpa using ht

/-! Equations for the two interesting outcomes of `/select-slot` on an
existing meeting. -/

/-- On an existing meeting with a pattern-matching slot time,
`/select-slot` answers success and stores the updated record. -/
theorem selectSlot_success_eq (d : MeetingData) (mid st : String) (m : Meeting)
    (hm : lookupMeeting d mid = some m) (hmid : mid ≠ "")
    (hst : matchesSlotPattern st = true) :
    selectSlot d mid st =
      (.ok, updateMeeting d mid
        { m with slotTime := some st, status := "confirmed" }) := by
  have hstne : st ≠ "" := matchesSlotPattern_ne_empty st hst
  simp [selectSlot, hmid, hstne, hm, hst]

/-- On an existing meeting with a non-matching, non-empty slot time,
`/select-slot` answers `invalidFormat` and leaves the store untouched. -/
theorem selectSlot_reject_eq (d : MeetingData) (mid st : String) (m : Meeting)
    (hm : lookupMeeting d mid = some m) (hmid : mid ≠ "") (hstne : st ≠ "")
    (hst : matchesSlotPattern st = false) :
    selectSlot d mid st = (.invalidFormat, d) := by
  simp [selectSlot, hmid, hstne, hm, hst]

/-- **C2.** `/validate-meeting` answers `notFound` when the id is not
in the registry; `expired` when the session exists (whatever its
status, so in particular after a successful `/select-slot`) and the
current time is strictly past its `expires`; and otherwise `valid`
with the session's stored id and current `slotTime` (`null` while
pending). -/
theorem validateMeeting_cases (d : MeetingData) (now : Nat) (mid : String) :
    (lookupMeeting d mid = none → (validateMeeting d now mid).1 = .notFound) ∧
    (∀ m, lookupMeeting d mid = some m → now > m.expires →
      (validateMeeting d now mid).1 = .expired) ∧
    (∀ m, lookupMeeting d mid = some m → ¬ now > m.expires →
      (validateMeeting d now mid).1 = .valid m.id m.slotTime) := by
  refine ⟨fun h => ?_, fun m hm hexp => ?_, fun m hm hexp => ?_⟩
  · simp [validateMeeting, h]
  · simp [validateMeeting, hm, hexp]
  · simp [validateMeeting, hm, hexp]

/-- Witness for C2: the confirmed session `meetingB` (expiry 1800000)
is reported `expired` at time 2000000. -/
theorem validateMeeting_cases_witness :
    (validateMeeting storeB 2000000 "WXYZ6789").1 = .expired :=
  (validateMeeting_cases storeB 2000000 "WXYZ6789").2.1 meetingB (by decide)
    (by decide)

/-- **C9.** The `/validate-meeting` handler is a pure read: for every
store and id (known, unknown, or expired) the store after the request
is the store before it — no record is created, deleted, or mutated. -/
theorem validateMeeting_pure (d : MeetingData) (now : Nat) (mid : String) :
    (validateMeeting d now mid).2 = d := by
  unfold validateMeeting
  cases h : lookupMeeting d mid with
  | none => rfl
  | some m =>
    by_cases hexp : now > m.expires <;> simp [hexp]

/-- **C10.** `/select-slot` never checks expiry: on a stored session
whose `expires` is already in the past, a pattern-matching slot time
still succeeds, stores the slot, and flips the status to `confirmed`,
even though `/validate-meeting` on the same id at the same instant
reports `expired`. -/
theorem selectSlot_ignores_expiry (d : MeetingData) (mid st : String)
    (now : Nat) (m : Meeting) (hm : lookupMeeting d mid = some m)
    (hmid : mid ≠ "") (hst : matchesSlotPattern st = true)
    (hexp : now > m.expires) :
    (selectSlot d mid st).1 = .ok ∧
    lookupMeeting (selectSlot d mid st).2 mid =
      some { m with slotTime := some st, status := "confirmed" } ∧
    (validateMeeting (selectSlot d mid st).2 now mid).1 = .expired := by
  have hsel := selectSlot_success_eq d mid st m hm hmid hst
  refine ⟨by rw [hsel], ?_, ?_⟩
  · rw [hsel]
    exact lookupMeeting_update_self d mid _ m hm
  · rw [hsel]
    have hl := lookupMeeting_update_self d mid
      { m with slotTime := some st, status := "confirmed" } m hm
    simp [validateMeeting, hl, hexp]

/-- Witness for C10: `meetingA` expires at 1800000; at time 2000000 the
slot `"09:30"` is still confirmed while validation reports expired. -/
theorem selectSlot_ignores_expiry_witness :
    (selectSlot storeA "ABCD2345" "09:30").1 = .ok ∧
    lookupMeeting (selectSlot storeA "ABCD2345" "09:30").2 "ABCD2345" =
      some { meetingA with slotTime := some "09:30", status := "confirmed" } ∧
    (validateMeeting (selectSlot storeA "ABCD2345" "09:30").2 2000000
      "ABCD2345").1 = .expired :=
  selectSlot_ignores_expiry storeA "ABCD2345" "09:30" 2000000 meetingA
    (by decide) (by decide) (by decide) (by decide)

/-- **C6.** Re-confirmation has no guard: on a session whose status is
already `confirmed`, `/select-slot` with any pattern-matching slot time
succeeds again, overwrites `slotTime`, leaves the status `confirmed`,
and a subsequent unexpired `/validate-meeting` reports the latest slot
time. -/
theorem selectSlot_reconfirm (d : MeetingData) (mid st : String) (now : Nat)
    (m : Meeting) (hm : lookupMeeting d mid = some m)
    (_hconf : m.status = "confirmed") (hmid : mid ≠ "")
    (hst : matchesSlotPattern st = true) (hnow : ¬ now > m.expires) :
    (selectSlot d mid st).1 = .ok ∧
    lookupMeeting (selectSlot d mid st).2 mid =
      some { m with slotTime := some st, status := "confirmed" } ∧
    (validateMeeting (selectSlot d mid st).2 now mid).1 =
      .valid m.id (some st) := by
  have hsel := selectSlot_success_eq d mid st m hm hmid hst
  refine ⟨by rw [hsel], ?_, ?_⟩
  · rw [hsel]
    exact lookupMeeting_update_self d mid _ m hm
  · rw [hsel]
    have hl := lookupMeeting_update_self d mid
      { m with slotTime := some st, status := "confirmed" } m hm
    simp [validateMeeting, hl, hnow]

/-- Witness for C6: `meetingB` is already confirmed for `"09:30"`;
re-confirming `"14:00"` overwrites the slot and validation reflects it. -/
theorem selectSlot_reconfirm_witness :
    (selectSlot storeB "WXYZ6789" "14:00").1 = .ok ∧
    lookupMeeting (selectSlot storeB "WXYZ6789" "14:00").2 "WXYZ6789" =
      some { meetingB with slotTime := some "14:00", status := "confirmed" } ∧
    (validateMeeting (selectSlot storeB "WXYZ6789" "14:00").2 100
      "WXYZ6789").1 = .valid "WXYZ6789" (some "14:00") :=
  selectSlot_reconfirm storeB "WXYZ6789" "14:00" 100 meetingB (by decide)
    (by decide) (by decide) (by decide) (by decide)

/-- **C1 (counterexample).** `"25:61"` denotes no valid 24-hour time,
yet `/select-slot` on the stored pending session accepts it — it is not
rejected with `invalidFormat`, and the session is modified (confirmed
with slot `"25:61"`): the code tests only the shape `^\d{2}:\d{2}$`,
not the digit ranges. -/
theorem selectSlot_2561_counterexample :
    isValid24hTime "25:61" = false ∧
    (selectSlot storeA "ABCD2345" "25:61").1 ≠ .invalidFormat ∧
    (selectSlot storeA "ABCD2345" "25:61").1 = .ok ∧
    (selectSlot storeA "ABCD2345" "25:61").2 ≠ storeA ∧
    lookupMeeting (selectSlot storeA "ABCD2345" "25:61").2 "ABCD2345" =
      some { meetingA with slotTime := some "25:61", status := "confirmed" } := by
  decide

/-- **C1 (amended).** On a stored session, `/select-slot` rejects with
`invalidFormat` (leaving the store untouched) exactly the non-empty
slot times that fail the shape regex `^\d{2}:\d{2}$` (such as `"9:30"`
and `"noon"`); every slot time matching that shape — every valid strict
24-hour `HH:MM` time, but also out-of-range strings such as `"25:61"` —
is accepted: it is stored as `slotTime` and the status becomes
`confirmed`. -/
theorem selectSlot_format_boundary (d : MeetingData) (mid st : String)
    (m : Meeting) (hm : lookupMeeting d mid = some m) (hmid : mid ≠ "")
    (hstne : st ≠ "") :
    (isValid24hTime st = true → matchesSlotPattern st = true) ∧
    (matchesSlotPattern st = false →
      selectSlot d mid st = (.invalidFormat, d)) ∧
    (matchesSlotPattern st = true →
      (selectSlot d mid st).1 = .ok ∧
      lookupMeeting (selectSlot d mid st).2 mid =
        some { m with slotTime := some st, status := "confirmed" }) := by
  refine ⟨fun hv => ?_, fun hbad => ?_, fun hok => ?_⟩
  · unfold isValid24hTime at hv
    exact (Bool.and_eq_true_iff.mp hv).1
  · exact selectSlot_reject_eq d mid st m hm hmid hstne hbad
  · have hsel := selectSlot_success_eq d mid st m hm hmid hok
    refine ⟨by rw [hsel], ?_⟩
    rw [hsel]
    exact lookupMeeting_update_self d mid _ m hm

/-- Witness for the amended C1: `"9:30"` is rejected without change,
`"09:30"` is accepted and confirmed, on the pending session
`meetingA`. -/
theorem selectSlot_format_boundary_witness :
    selectSlot storeA "ABCD2345" "9:30" = (.invalidFormat, storeA) ∧
    (selectSlot storeA "ABCD2345" "09:30").1 = .ok ∧
    lookupMeeting (selectSlot storeA "ABCD2345" "09:30").2 "ABCD2345" =
      some { meetingA with slotTime := some "09:30", status := "confirmed" } :=
  ⟨(selectSlot_format_boundary storeA "ABCD2345" "9:30" meetingA (by decide)
      (by decide) (by decide)).2.1 (by decide),
   (selectSlot_format_boundary storeA "ABCD2345" "09:30" meetingA (by decide)
      (by decide) (by decide)).2.2 (by decide)⟩

/-- The record `/create-meeting` stores under a freshly minted id. -/
def freshMeeting (mid : String) (now : Nat) (email : String) : Meeting :=
  { id := mid, createdAt := now, recipientEmail := email,
    expires := now + 30 * 60 * 1000, slotTime := none, status := "pending" }

/-- **C3.** Every id the generator returns is exactly 8 characters, all
drawn from the fixed alphabet `ABCDEFGHJKLMNPQRSTUVWXYZ23456789` (which
contains none of the confusable characters `0`, `O`, `1`, `I`), and is
fresh: it is not bound in the registry, colliding attempts being
retried rather than returned. -/
theorem generateMeetingId_spec (d : MeetingData) (rand : Nat → Fin 32)
    (k fuel : Nat) (mid : String)
    (h : generateMeetingId d rand k fuel = some mid) :
    mid.length = 8 ∧
    (∀ ch ∈ mid.data, ch ∈ meetingChars) ∧
    ('0' ∉ meetingChars ∧ 'O' ∉ meetingChars ∧
      '1' ∉ meetingChars ∧ 'I' ∉ meetingChars) ∧
    lookupMeeting d mid = none := by
  obtain ⟨h1, h2, h3⟩ := generateMeetingId_sound d rand k fuel mid h
  exact ⟨h1, h2, by decide, h3⟩

/-- A session whose id is the one `randZero`-style generation would
mint first, used to force a collision. -/
def meetingC : Meeting :=
  { id := "AAAAAAAA", createdAt := 0, recipientEmail := "parent@example.com",
    expires := 1800000, slotTime := none, status := "pending" }

/-- A store occupying the id `"AAAAAAAA"`. -/
def storeC : MeetingData := [("AAAAAAAA", meetingC)]

/-- An oracle whose first 8 draws give index 0 (id `"AAAAAAAA"`, which
collides with `storeC`) and whose later draws give index 1 (so the
retry mints `"BBBBBBBB"`). -/
def randStep : Nat → Fin 32 := fun n => if n < 8 then 0 else 1

/-- Witness for C3: against `storeC` the first attempt collides, the
generator retries, and the returned `"BBBBBBBB"` has length 8, alphabet
characters only, and is fresh. -/
theorem generateMeetingId_spec_witness :
    generateMeetingId storeC randStep 0 2 = some "BBBBBBBB" ∧
    ("BBBBBBBB".length = 8 ∧
      (∀ ch ∈ "BBBBBBBB".data, ch ∈ meetingChars) ∧
      ('0' ∉ meetingChars ∧ 'O' ∉ meetingChars ∧
        '1' ∉ meetingChars ∧ 'I' ∉ meetingChars) ∧
      lookupMeeting storeC "BBBBBBBB" = none) :=
  ⟨by decide, generateMeetingId_spec storeC randStep 0 2 "BBBBBBBB" (by decide)⟩

/-- **C5.** When the id is minted and stored but the invitation email
fails to send, `/create-meeting` reports the distinct failure
`EMAIL_FAILED` yet does not roll back: the pending record is still in
the registry under its id, `/select-slot` still succeeds on it, and
`/validate-meeting` still reports it valid (slot `null`). -/
theorem createMeeting_email_failure (d : MeetingData) (now : Nat)
    (email : String) (rand : Nat → Fin 32) (k fuel : Nat) (mid : String)
    (hgen : generateMeetingId d rand k fuel = some mid) (hemail : email ≠ "") :
    (createMeeting d now email rand k fuel false).1 = .emailFailed ∧
    lookupMeeting (createMeeting d now email rand k fuel false).2 mid =
      some (freshMeeting mid now email) ∧
    (selectSlot (createMeeting d now email rand k fuel false).2 mid
      "10:00").1 = .ok ∧
    (validateMeeting (createMeeting d now email rand k fuel false).2 now
      mid).1 = .valid mid none := by
  have hmidne : mid ≠ "" := by
    have hlen := (generateMeetingId_sound d rand k fuel mid hgen).1
    intro h0
    rw [h0] at hlen
    simp [String.length] at hlen
  have hcm : createMeeting d now email rand k fuel false =
      (.emailFailed, (mid, freshMeeting mid now email) :: d) := by
    simp [createMeeting, hemail, hgen, freshMeeting]
  rw [hcm]
  have hlook : lookupMeeting ((mid, freshMeeting mid now email) :: d) mid =
      some (freshMeeting mid now email) := by
    rw [lookupMeeting_cons]
    simp
  refine ⟨rfl, hlook, ?_, ?_⟩
  · rw [selectSlot_success_eq ((mid, freshMeeting mid now email) :: d) mid
      "10:00" (freshMeeting mid now email) hlook hmidne (by decide)]
  · have hnow : ¬ now > (freshMeeting mid now email).expires := by
      show ¬ now > now + 30 * 60 * 1000
      omega
    simp only [validateMeeting, hlook, if_neg hnow]
    rfl

/-- Witness for C5: creation over the empty store at time 0 with a
failing email send leaves the pending session stored and usable. -/
theorem createMeeting_email_failure_witness :
    (createMeeting [] 0 "parent@example.com" randStep 0 1 false).1 =
      .emailFailed ∧
    lookupMeeting (createMeeting [] 0 "parent@example.com" randStep 0 1
      false).2 "AAAAAAAA" = some (freshMeeting "AAAAAAAA" 0
      "parent@example.com") ∧
    (selectSlot (createMeeting [] 0 "parent@example.com" randStep 0 1
      false).2 "AAAAAAAA" "10:00").1 = .ok ∧
    (validateMeeting (createMeeting [] 0 "parent@example.com" randStep 0 1
      false).2 0 "AAAAAAAA").1 = .valid "AAAAAAAA" none :=
  createMeeting_email_failure [] 0 "parent@example.com" randStep 0 1
    "AAAAAAAA" (by decide) (by decide)

/-- The state-machine invariant of one session record: the status is
one of the two modeled states and `slotTime` is set exactly when it is
`confirmed`. -/
def meetingInv (m : Meeting) : Prop :=
  (m.status = "pending" ∨ m.status = "confirmed") ∧
  (m.slotTime ≠ none ↔ m.status = "confirmed")

instance (m : Meeting) : Decidable (meetingInv m) := by
  unfold meetingInv
  infer_instance

/-- The invariant over every record of the store. -/
def dataInv (d : MeetingData) : Prop := ∀ p ∈ d, meetingInv p.2

instance (d : MeetingData) : Decidable (dataInv d) := by
  unfold dataInv
  infer_instance

/-- `/create-meeting` either leaves the store unchanged (rejected
input, or generator still looping) or prepends the freshly minted
pending record. -/
theorem createMeeting_state (d : MeetingData) (now : Nat) (email : String)
    (rand : Nat → Fin 32) (k fuel : Nat) (emailOk : Bool) :
    (createMeeting d now email rand k fuel emailOk).2 = d ∨
    ∃ mid, generateMeetingId d rand k fuel = some mid ∧
      (createMeeting d now email rand k fuel emailOk).2 =
        (mid, freshMeeting mid now email) :: d := by
  unfold createMeeting
  by_cases he : (email == "") = true
  · rw [if_pos he]
    exact Or.inl rfl
  · rw [if_neg he]
    cases hgen : generateMeetingId d rand k fuel with
    | none => exact Or.inl rfl
    | some mid =>
      refine Or.inr ⟨mid, rfl, ?_⟩
      cases emailOk <;> rfl

/-- `/select-slot` either leaves the store unchanged (rejected input)
or performs the in-place confirmation update of the addressed record. -/
theorem selectSlot_state (d : MeetingData) (mid st : String) :
    (selectSlot d mid st).2 = d ∨
    ∃ m, lookupMeeting d mid = some m ∧
      (selectSlot d mid st).2 =
        updateMeeting d mid
          { m with slotTime := some st, status := "confirmed" } := by
  unfold selectSlot
  by_cases hc : (mid == "" || st == "") = true
  · rw [if_pos hc]
    exact Or.inl rfl
  · rw [if_neg hc]
    cases hm : lookupMeeting d mid with
    | none => exact Or.inl rfl
    | some m =>
      by_cases hp : (!matchesSlotPattern st) = true
      · refine Or.inl ?_
        show (if (!matchesSlotPattern st) = true
            then (SelectSlotResult.invalidFormat, d)
            else (SelectSlotResult.ok, updateMeeting d mid
              { m with slotTime := some st, status := "confirmed" })).2 = d
        rw [if_pos hp]
      · refine Or.inr ⟨m, rfl, ?_⟩
        show (if (!matchesSlotPattern st) = true
            then (SelectSlotResult.invalidFormat, d)
            else (SelectSlotResult.ok, updateMeeting d mid
              { m with slotTime := some st, status := "confirmed" })).2 = _
        rw [if_neg hp]

/-- **C4.** The registry invariant — status is `pending` or
`confirmed`, and `slotTime` is set iff the status is `confirmed` — is
preserved by every operation.  `/create-meeting` only ever adds a
record established as `pending` with `slotTime = null` (each binding
after it is an old binding or that fresh one); `/select-slot` moves a
binding only forward (each binding after it is the old one unchanged or
a `confirmed` one carrying the new slot, so never from `confirmed` back
to `pending`, and `slotTime` and status are set together);
`/validate-meeting` does not touch the store. -/
theorem registry_invariant (d : MeetingData) (hinv : dataInv d) :
    (∀ now email rand k fuel emailOk,
      dataInv (createMeeting d now email rand k fuel emailOk).2 ∧
      (∀ mid m,
        lookupMeeting (createMeeting d now email rand k fuel emailOk).2 mid =
          some m →
        lookupMeeting d mid = some m ∨
          (m.status = "pending" ∧ m.slotTime = none))) ∧
    (∀ mid st,
      dataInv (selectSlot d mid st).2 ∧
      (∀ mid' m m', lookupMeeting d mid' = some m →
        lookupMeeting (selectSlot d mid st).2 mid' = some m' →
        m' = m ∨ (m'.status = "confirmed" ∧ m'.slotTime = some st))) ∧
    (∀ now mid, (validateMeeting d now mid).2 = d) := by
  refine ⟨fun now email rand k fuel emailOk => ?_, fun mid st => ?_,
    fun now mid => ?_⟩
  · rcases createMeeting_state d now email rand k fuel emailOk with
      hs | ⟨mid0, _hgen, hs⟩
    · rw [hs]
      exact ⟨hinv, fun mid m hm => Or.inl hm⟩
    · rw [hs]
      constructor
      · intro p hp
        rcases List.mem_cons.mp hp with hp | hp
        · rw [hp]
          simp [meetingInv, freshMeeting]
        · exact hinv p hp
      · intro mid m hm
        rw [lookupMeeting_cons] at hm
        by_cases hmid : (mid0 == mid) = true
        · rw [if_pos hmid] at hm
          obtain rfl := Option.some.inj hm
          exact Or.inr ⟨rfl, rfl⟩
        · rw [if_neg hmid] at hm
          exact Or.inl hm
  · rcases selectSlot_state d mid st with hs | ⟨m0, _hm0, hs⟩
    · rw [hs]
      refine ⟨hinv, fun mid' m m' h1 h2 => ?_⟩
      rw [h1] at h2
      exact Or.inl (Option.some.inj h2).symm
    · rw [hs]
      constructor
      · intro p hp
        simp only [updateMeeting, List.mem_map] at hp
        obtain ⟨q, hq, hpq⟩ := hp
        by_cases hqk : (q.1 == mid) = true
        · rw [if_pos hqk] at hpq
          rw [← hpq]
          simp [meetingInv]
        · rw [if_neg hqk] at hpq
          rw [← hpq]
          exact hinv q hq
      · intro mid' m m' h1 h2
        rw [lookupMeeting_update_eq, h1] at h2
        have h3 : (if mid' = mid then
            { m0 with slotTime := some st, status := "confirmed" } else m) = m' :=
          Option.some.inj h2
        by_cases hmm : mid' = mid
        · rw [if_pos hmm] at h3
          rw [← h3]
          exact Or.inr ⟨rfl, rfl⟩
        · rw [if_neg hmm] at h3
          exact Or.inl h3.symm
  · unfold validateMeeting
    cases h : lookupMeeting d mid with
    | none => rfl
    | some m =>
      by_cases hexp : now > m.expires <;> simp [hexp]

/-- Witness for C4: the invariant holds on the concrete pending store
and is preserved across a concrete confirmation. -/
theorem registry_invariant_witness :
    dataInv (selectSlot storeA "ABCD2345" "09:30").2 :=
  ((registry_invariant storeA (by decide)).2.1 "ABCD2345" "09:30").1

/-- A relay state with two connected sockets and no room memberships. -/
def relayAB : RelayState := { connected := ["A", "B"], membership := [] }

/-- **C7 (counterexample).** Socket `A` joins room `R` first: the room
has no other member, so nobody is notified.  Then `B` joins: only `A`
is notified.  Over the whole trace `B` receives `A`'s `user-joined`
notification zero times, not once — so it is false that two connections
joining the same room each receive the other's notification exactly
once per join. -/
theorem joinRoom_counterexample :
    (joinRoom relayAB "A" "R").2 = [] ∧
    (joinRoom (joinRoom relayAB "A" "R").1 "B" "R").2 =
      [("A", RelayEvent.userJoined "B")] ∧
    ((joinRoom relayAB "A" "R").2 ++
        (joinRoom (joinRoom relayAB "A" "R").1 "B" "R").2).count
      ("B", RelayEvent.userJoined "A") = 0 := by
  decide

/-- **C7 (amended).** On `join-room`, the joining connection is added
to the room's membership, and a `user-joined` event carrying its id is
delivered to exactly the connected sockets that were members of the
room at join time other than the joiner — the joiner receives no event
for its own join, and (connections being distinct) each prior member
receives it exactly once.  Hence when two connections join the same
room in order, the earlier one receives the later's notification
exactly once, and the later joiner receives no notification for the
earlier join. -/
theorem joinRoom_notifications (st : RelayState) (c room : String)
    (hn : st.connected.Nodup) :
    (joinRoom st c room).1.connected = st.connected ∧
    inRoom (joinRoom st c room).1 c room = true ∧
    (∀ x, (x, RelayEvent.userJoined c) ∈ (joinRoom st c room).2 ↔
      (x ∈ st.connected ∧ x ≠ c ∧ inRoom st x room = true)) ∧
    ((joinRoom st c room).2.map Prod.fst).Nodup ∧
    (∀ p ∈ (joinRoom st c room).2, p.1 ≠ c ∧
      p.2 = RelayEvent.userJoined c) := by
  obtain ⟨hconn, hjoined⟩ := joinRoom_state st c room
  refine ⟨hconn, hjoined, ?_, ?_, ?_⟩
  · intro x
    rw [joinRoom_recipients]
    constructor
    · intro hx
      obtain ⟨a, ha, heq⟩ := List.mem_map.mp hx
      have hax : a = x := congrArg Prod.fst heq
      subst hax
      have hmem := List.mem_of_mem_filter ha
      have hfa := List.of_mem_filter ha
      obtain ⟨h1, h2⟩ := Bool.and_eq_true_iff.mp hfa
      exact ⟨hmem, bne_iff_ne.mp h1, h2⟩
    · rintro ⟨hmem, h1, h2⟩
      apply List.mem_map.mpr
      refine ⟨x, ?_, rfl⟩
      apply List.mem_filter.mpr
      exact ⟨hmem, Bool.and_eq_true_iff.mpr ⟨bne_iff_ne.mpr h1, h2⟩⟩
  · have hfst : ((st.connected.filter
        (fun x => x != c && inRoom st x room)).map
        (fun x => (x, RelayEvent.userJoined c))).map Prod.fst =
        st.connected.filter (fun x => x != c && inRoom st x room) := by
      simp [Function.comp_def]
    rw [joinRoom_recipients, hfst]
    exact hn.filter _
  · intro p hp
    rw [joinRoom_recipients] at hp
    simp only [List.mem_map] at hp
    obtain ⟨x, hx, rfl⟩ := hp
    have hfx := List.of_mem_filter hx
    refine ⟨?_, rfl⟩
    exact bne_iff_ne.mp (Bool.and_eq_true_iff.mp hfx).1

/-- Witness for the amended C7: after `A` has joined room `R`, `B`'s
join delivers `user-joined B` to `A`. -/
theorem joinRoom_notifications_witness :
    ("A", RelayEvent.userJoined "B") ∈
      (joinRoom (joinRoom relayAB "A" "R").1 "B" "R").2 :=
  ((joinRoom_notifications (joinRoom relayAB "A" "R").1 "B" "R"
    (by decide)).2.2.1 "A").mpr (by decide)

/-- **C8.** `send-call` is point-to-point and checks no room
membership: when the target names a connected socket (and no socket
joined a room of that name), exactly that socket receives the
`receive-call` event carrying the caller id and the unmodified signal
payload, whatever rooms anyone is in; when the target names no
connection at all, the message is accepted and delivers nothing — no
recipients, no error to the sender, and no crash (`sendCall` is a total
function returning the empty delivery list). -/
theorem sendCall_delivery (st : RelayState) (target callerId signal : String)
    (hn : st.connected.Nodup)
    (hroom : ∀ q ∈ st.membership, q.2 ≠ target) :
    (target ∈ st.connected →
      sendCall st target callerId signal =
        [(target, .receiveCall callerId signal)]) ∧
    (target ∉ st.connected →
      sendCall st target callerId signal = []) := by
  have hnotmem : ∀ x : String, (x, target) ∉ st.membership := by
    intro x hx
    exact hroom (x, target) hx rfl
  have hf : ∀ x, inRoom st x target = (x == target) := by
    intro x
    have hcon : st.membership.contains (x, target) = false := by
      rw [← Bool.not_eq_true, List.elem_iff]
      exact hnotmem x
    unfold inRoom
    rw [hcon, Bool.or_false]
  have hsend : sendCall st target callerId signal =
      (st.connected.filter (fun x => x == target)).map
        (fun x => (x, RelayEvent.receiveCall callerId signal)) := by
    unfold sendCall
    congr 1
    exact List.filter_congr (fun x _ => hf x)
  constructor
  · intro hmem
    rw [hsend, filter_beq_singleton st.connected target hn hmem]
    rfl
  · intro hmem
    rw [hsend]
    have hnil : st.connected.filter (fun x => x == target) = [] :=
      List.filter_eq_nil_iff.mpr (fun x hx => by
        simp only [beq_iff_eq]
        intro he
        exact hmem (he ▸ hx))
    rw [hnil]
    rfl

/-- A relay state where `A` and `B` both joined room `R`. -/
def relayJoined : RelayState :=
  { connected := ["A", "B"], membership := [("A", "R"), ("B", "R")] }

/-- Witness for C8: targeting the connected socket `B` delivers exactly
to `B`; targeting the never-connected id `Z` delivers nothing. -/
theorem sendCall_delivery_witness :
    sendCall relayJoined "B" "A" "sdp-offer" =
      [("B", RelayEvent.receiveCall "A" "sdp-offer")] ∧
    sendCall relayJoined "Z" "A" "sdp-offer" = [] :=
  ⟨(sendCall_delivery relayJoined "B" "A" "sdp-offer" (by decide)
      (by decide)).1 (by decide),
   (sendCall_delivery relayJoined "Z" "A" "sdp-offer" (by decide)
      (by decide)).2 (by decide)⟩
